import Mathlib

/-!
Verification of the chain-lifecycle controller in `src/src/chain.ts`
(the `Chain` class of the Qtest integration-test harness).

The asynchronous, I/O-bound methods of the `Chain` class are shallowly
embedded as pure functions over an explicit *environment* describing the
responses of the external collaborators (the node's RPC surface and the
container time-jump primitive):

* head-block polls are a stream `ℕ → ℤ` of `head_block_num` readings,
  consumed in order by the polling loops, with an explicit fuel bound
  standing in for the (unbounded) real loop;
* block timestamps are modelled as their millisecond values (`ℤ`), i.e.
  `blockTimeToMs` (JS `Date` parsing) is the identity on the value it
  produces;
* JS numbers appearing in the time arithmetic of `addTime` are modelled
  as rationals (`ℚ`), with `Math.floor` as `Int.floor` and
  `Math.max(0, ·)` as `max 0 ·`;
* a method that JS would reject with a thrown `Error` returns an explicit
  error constructor; a polling loop that never reaches its target within
  the modelled trace returns a `diverged` marker;
* calls to the time-jump primitive `manipulateChainTime` are recorded, in
  order, as the list of cumulative offsets passed to it.

Helper modules of the repository that are not under `src/` (`./utils`,
`./wallet`) are modelled from the spec where a claim needs them; each such
definition carries a doc comment saying so.
-/

namespace Qtest

/-- The `head_block_num` / `head_block_time` pair returned by `get_info`
(`getInfo` in `chain.ts`); the timestamp is modelled directly as its
millisecond value. -/
structure ChainInfo where
  head_block_num : ℤ
  head_block_time : ℤ
  deriving Repr, DecidableEq

/-- `blockTimeToMs` (chain.ts line 300): parses a block-time string into
epoch milliseconds; block times are modelled as their millisecond values,
so the parse is the identity. -/
def blockTimeToMs (blockTime : ℤ) : ℤ := blockTime

/-- `isProducingBlock` (chain.ts lines 71-79): sample `head_block_num`,
sleep 600ms, resample, and report whether the number grew; any RPC error
(a `none` sample) is caught and reported as `false`.  When the first
sample throws, the real code never takes the second; the model still
receives a placeholder for it, which the `none` row ignores. -/
def isProducingBlock (sample1 sample2 : Option ℤ) : Bool :=
  match sample1, sample2 with
  | some a, some b => decide (b - a > 0)
  | _, _ => false

/-- The polling loop of `waitTillBlock` (chain.ts lines 291-298), reading
the head-block stream `polls` from index `i` on, with `fuel` bounding the
number of reads the modelled trace provides. -/
def waitTillBlockGo (polls : ℕ → ℤ) (target : ℤ) : ℕ → ℕ → Option ℤ
  | _, 0 => none
  | i, fuel + 1 =>
    if polls i < target then waitTillBlockGo polls target (i + 1) fuel
    else some (polls i)

/-- `waitTillBlock` (chain.ts lines 291-298): poll `headBlockNum` every
500ms until it reaches `target`; returns the first reading `≥ target`. -/
def waitTillBlock (polls : ℕ → ℤ) (target : ℤ) (fuel : ℕ) : Option ℤ :=
  waitTillBlockGo polls target 0 fuel

/-- Environment of one `waitTillNextBlock` call: the `get_info` snapshot
taken at its start, and the head-block readings its inner `waitTillBlock`
loop observes. -/
structure SettleEnv where
  startingBlock : ChainInfo
  polls : ℕ → ℤ
  fuel : ℕ

/-- The record `{ startingBlock, elapsedBlocks }` returned by
`waitTillNextBlock`. -/
structure SettleOut where
  startingBlock : ChainInfo
  elapsedBlocks : ℤ
  deriving Repr, DecidableEq

/-- `waitTillNextBlock` (chain.ts lines 280-289): snapshot `get_info`,
wait until the head block number reaches `snapshot + numBlocks`, and
return the snapshot together with how many blocks actually elapsed. -/
def waitTillNextBlock (env : SettleEnv) (numBlocks : ℤ := 1) : Option SettleOut :=
  match waitTillBlock env.polls (env.startingBlock.head_block_num + numBlocks) env.fuel with
  | none => none
  | some h => some ⟨env.startingBlock, h - env.startingBlock.head_block_num⟩

/-- The offset `addingTime` computed at chain.ts lines 235-246: start from
the requested `time` (seconds), subtract `(startTime - fromBlockTimeMs) / 1000`
when a `fromBlockTime` override was supplied, subtract
`elapsedBlocks * 0.5`, clamp at zero with `Math.max`, and `Math.floor`. -/
def computeAddingTime (time : ℚ) (fromBlockTimeMs : Option ℤ)
    (startTimeMs elapsedBlocks : ℤ) : ℤ :=
  match fromBlockTimeMs with
  | some fb =>
    ⌊max 0 (time - ((startTimeMs : ℚ) - (fb : ℚ)) / 1000 - (elapsedBlocks : ℚ) * (1 / 2))⌋
  | none => ⌊max 0 (time - (elapsedBlocks : ℚ) * (1 / 2))⌋

/-- Environment of one `addTime` call: the two settling waits, the
`isProducingBlock` sample pairs observed after each jump attempt, and the
final `get_info` read for the return value. -/
structure AddTimeEnv where
  settle1 : SettleEnv
  producing : ℕ → Option ℤ × Option ℤ
  settle2 : SettleEnv
  endInfo : ChainInfo

/-- The two `throw new Error(...)` sites of `addTime`. -/
inductive ChainError where
  | negativeTime
  | maxTriesExceeded
  deriving Repr, DecidableEq

/-- How one modelled `addTime` call ends: a returned millisecond count, a
thrown error, or a polling loop that never reached its target within the
modelled trace (the real loop would still be spinning). -/
inductive AddTimeResult where
  | ret (ms : ℤ)
  | err (e : ChainError)
  | diverged
  deriving Repr, DecidableEq

/-- Full observable outcome of one `addTime` call: its result, the final
value of `this.timeAdded`, and the cumulative offsets passed to
`manipulateChainTime`, in call order. -/
structure AddTimeRun where
  result : AddTimeResult
  timeAdded : ℤ
  jumps : List ℤ
  deriving Repr, DecidableEq

/-- Index of the first jump attempt (0-based) whose follow-up
`isProducingBlock` check succeeds, among the first `bound` attempts.  The
do/while loop at chain.ts lines 253-262 makes attempt `k+1` exactly when
checks `0..k` all failed, and throws when checks `0..9` all failed. -/
def firstProducing (producing : ℕ → Option ℤ × Option ℤ) (bound : ℕ) : Option ℕ :=
  (List.range bound).find? fun k => isProducingBlock (producing k).1 (producing k).2

/-- `addTime` (chain.ts lines 229-267) over the environment `env`, started
with cumulative offset `timeAdded`; `fromBlockTimeMs` is `some` of the
parsed override when the optional `fromBlockTime` string is non-empty. -/
def addTime (timeAdded : ℤ) (time : ℚ) (fromBlockTimeMs : Option ℤ)
    (env : AddTimeEnv) : AddTimeRun :=
  if time < 0 then ⟨.err .negativeTime, timeAdded, []⟩
  else
    match waitTillNextBlock env.settle1 2 with
    | none => ⟨.diverged, timeAdded, []⟩
    | some s =>
      if computeAddingTime time fromBlockTimeMs
          (blockTimeToMs s.startingBlock.head_block_time) s.elapsedBlocks = 0 then
        ⟨.ret 0, timeAdded, []⟩
      else
        match firstProducing env.producing 10 with
        | none =>
          ⟨.err .maxTriesExceeded, timeAdded,
            List.replicate 10 (timeAdded + computeAddingTime time fromBlockTimeMs
              (blockTimeToMs s.startingBlock.head_block_time) s.elapsedBlocks)⟩
        | some k =>
          match waitTillNextBlock env.settle2 2 with
          | none =>
            ⟨.diverged,
              timeAdded + computeAddingTime time fromBlockTimeMs
                (blockTimeToMs s.startingBlock.head_block_time) s.elapsedBlocks,
              List.replicate (k + 1) (timeAdded + computeAddingTime time fromBlockTimeMs
                (blockTimeToMs s.startingBlock.head_block_time) s.elapsedBlocks)⟩
          | some _ =>
            ⟨.ret (blockTimeToMs env.endInfo.head_block_time -
                fromBlockTimeMs.getD (blockTimeToMs s.startingBlock.head_block_time)),
              timeAdded + computeAddingTime time fromBlockTimeMs
                (blockTimeToMs s.startingBlock.head_block_time) s.elapsedBlocks,
              List.replicate (k + 1) (timeAdded + computeAddingTime time fromBlockTimeMs
                (blockTimeToMs s.startingBlock.head_block_time) s.elapsedBlocks)⟩

/-! ## Account provisioning (chain.ts lines 98-211) -/

/-- The `coreToken` field of `Chain` (chain.ts lines 12-15). -/
structure Token where
  symbol : String
  decimal : ℕ
  deriving Repr, DecidableEq

def coreToken : Token := ⟨"WAX", 8⟩

/-- An asset quantity of the native token:
amount together with the token's symbol and decimal precision. -/
structure AssetQuantity where
  amount : ℚ
  symbol : String
  decimal : ℕ
  deriving Repr, DecidableEq

/-- Modelled from the spec: `toAssetQuantity` is imported from `./utils`,
which is not under `src/`.  Per the spec it renders an amount into the
native token's asset-quantity representation (symbol and decimal
precision of `coreToken`). -/
def toAssetQuantity (amount : ℚ) (token : Token) : AssetQuantity :=
  ⟨amount, token.symbol, token.decimal⟩

/-- A `{ actor, permission }` authorization entry. -/
structure Authorization where
  actor : String
  permission : String
  deriving Repr, DecidableEq

/-- A `{ key, weight }` entry of an authority. -/
structure KeyWeight where
  key : String
  weight : ℕ
  deriving Repr, DecidableEq

/-- The owner/active authority object built in `createAccount`
(chain.ts lines 134-155): threshold, key list, and the (empty)
`accounts` and `waits` lists. -/
structure Authority where
  threshold : ℕ
  keys : List KeyWeight
  accounts : List String
  waits : List String
  deriving Repr, DecidableEq

/-- The `data` payload of each of the four actions bundled by
`createAccount`. -/
inductive ActionData where
  | newaccount (creator name : String) (owner active : Authority)
  | buyrambytes (payer receiver : String) (bytes : ℕ)
  | delegatebw (sender receiver : String)
      (stake_net_quantity stake_cpu_quantity : AssetQuantity) (transfer : ℕ)
  | transfer (sender receiver : String) (quantity : AssetQuantity) (memo : String)
  deriving Repr, DecidableEq

/-- One action of a transaction: contract account, action name,
authorization list, and data payload. -/
structure ChainAction where
  account : String
  name : String
  authorization : List Authorization
  data : ActionData
  deriving Repr, DecidableEq

/-- The single-key threshold-1 authority over the shared test signing key
(`signatureProvider.availableKeys[0]`, from `./wallet`, not under `src/`;
the key value is a parameter of the model). -/
def testKeyAuthority (key : String) : Authority :=
  ⟨1, [⟨key, 1⟩], [], []⟩

/-- `createAccount` (chain.ts lines 119-211), as the single transaction it
submits: the list of its four actions, in source order.  `key` is the
shared test signing key. -/
def createAccountActions (key : String) (account : String)
    (supplyAmount : AssetQuantity := toAssetQuantity 100 coreToken)
    (bytes : ℕ := 1024 * 1024) : List ChainAction :=
  [ ⟨"eosio", "newaccount", [⟨"eosio", "active"⟩],
      .newaccount "eosio" account (testKeyAuthority key) (testKeyAuthority key)⟩,
    ⟨"eosio", "buyrambytes", [⟨"eosio", "active"⟩],
      .buyrambytes "eosio" account bytes⟩,
    ⟨"eosio", "delegatebw", [⟨"eosio", "active"⟩],
      .delegatebw "eosio" account (toAssetQuantity 10 coreToken)
        (toAssetQuantity 10 coreToken) 1⟩,
    ⟨"eosio.token", "transfer", [⟨"eosio", "active"⟩],
      .transfer "eosio" account supplyAmount "supply to test account"⟩ ]

/-- `createAccounts` (chain.ts lines 110-117), as the sequence of
transactions it submits: one `createAccount` transaction per name, fully
awaited in list order (the i-th transaction is for the i-th name). -/
def createAccounts (key : String) (accounts : List String)
    (supplyAmount : AssetQuantity := toAssetQuantity 100 coreToken) :
    List (List ChainAction) :=
  accounts.map fun a => createAccountActions key a supplyAmount

/-- The deterministic name scheme of `createTestAccounts` (chain.ts line
105): index `i` yields `acc` ++ (group `⌊i/5⌋+1`) ++ (slot `i%5+1`) ++
`.test`. -/
def createTestAccountNames (length : ℕ) : List String :=
  (List.range length).map fun i => s!"acc{i / 5 + 1}{i % 5 + 1}.test"

/-- `initializeTestAccounts` (chain.ts lines 98-100) composed with
`createTestAccounts` (lines 102-108): the default batch of 10 test
accounts, created with the default supply amount. -/
def initializeTestAccounts (key : String) : List (List ChainAction) :=
  createAccounts key (createTestAccountNames 10)

/-- Projection: the quantity of a `transfer` action payload. -/
def transferQuantity : ActionData → Option AssetQuantity
  | .transfer _ _ q _ => some q
  | _ => none

/-! ## Concrete demonstration environments, used by the witnesses. -/

/-- A settling wait whose head-block stream advances by one per poll,
starting from block 5 at time 1000ms. -/
def demoSettle : SettleEnv := ⟨⟨5, 1000⟩, fun i => 5 + i, 10⟩

/-- A second settling wait, starting from block 9 at time 4000ms. -/
def demoSettle2 : SettleEnv := ⟨⟨9, 4000⟩, fun i => 9 + i, 10⟩

/-- An `addTime` environment where every `isProducingBlock` probe sees the
head advance from 1 to 2, and the final `get_info` reads block 11 at
9000ms. -/
def demoEnvOk : AddTimeEnv := ⟨demoSettle, fun _ => (some 1, some 2), demoSettle2, ⟨11, 9000⟩⟩

/-- An `addTime` environment where every `isProducingBlock` probe fails at
the RPC level (production never observed to resume). -/
def demoEnvStuck : AddTimeEnv := ⟨demoSettle, fun _ => (none, none), demoSettle2, ⟨11, 9000⟩⟩

/-! ## Helper lemmas -/

theorem waitTillBlockGo_target_le (polls : ℕ → ℤ) (target : ℤ) :
    ∀ fuel i h, waitTillBlockGo polls target i fuel = some h → target ≤ h := by
  intro fuel
  induction fuel with
  | zero => intro i h hh; simp [waitTillBlockGo] at hh
  | succ fuel ih =>
    intro i h hh
    rw [waitTillBlockGo] at hh
    by_cases hc : polls i < target
    · rw [if_pos hc] at hh
      exact ih _ _ hh
    · rw [if_neg hc] at hh
      injection hh with hh
      omega

theorem waitTillNextBlock_spec (env : SettleEnv) (n : ℤ) (out : SettleOut)
    (h : waitTillNextBlock env n = some out) :
    out.startingBlock = env.startingBlock ∧ n ≤ out.elapsedBlocks := by
  unfold waitTillNextBlock at h
  split at h
  · cases h
  · next hgt hb =>
    injection h with h
    subst h
    refine ⟨rfl, ?_⟩
    have := waitTillBlockGo_target_le env.polls
      (env.startingBlock.head_block_num + n) env.fuel 0 _ hb
    simp only [SettleOut.elapsedBlocks]
    omega

theorem computeAddingTime_nonneg (time : ℚ) (fb : Option ℤ) (st eb : ℤ) :
    0 ≤ computeAddingTime time fb st eb := by
  cases fb <;>
    · simp only [computeAddingTime]
      exact Int.le_floor.mpr (by exact_mod_cast le_max_left 0 _)

theorem firstProducing_eq_none_iff (producing : ℕ → Option ℤ × Option ℤ) (bound : ℕ) :
    firstProducing producing bound = none ↔
      ∀ k < bound, isProducingBlock (producing k).1 (producing k).2 = false := by
  simp [firstProducing, List.find?_eq_none, List.mem_range]

theorem firstProducing_lt (producing : ℕ → Option ℤ × Option ℤ) (bound k : ℕ)
    (h : firstProducing producing bound = some k) : k < bound := by
  have hm : k ∈ List.range bound := List.mem_of_find?_eq_some h
  simpa [List.mem_range] using hm

/-- Shared helper: when the first settling wait yields `s` and the computed
offset is zero, `addTime` takes the short-circuit path. -/
theorem addTime_eq_ret_zero (timeAdded : ℤ) (time : ℚ) (fb : Option ℤ)
    (env : AddTimeEnv) (s : SettleOut) (h0 : 0 ≤ time)
    (hs : waitTillNextBlock env.settle1 2 = some s)
    (hz : computeAddingTime time fb (blockTimeToMs s.startingBlock.head_block_time)
      s.elapsedBlocks = 0) :
    addTime timeAdded time fb env = ⟨.ret 0, timeAdded, []⟩ := by
  unfold addTime
  rw [if_neg (not_lt.mpr h0)]
  split
  · next heq => rw [hs] at heq; cases heq
  · next s' heq =>
    rw [hs] at heq
    injection heq with heq
    subst heq
    rw [if_pos hz]

/-! ## Claim theorems -/

/-- C1: for every non-negative `deltaSeconds`, a call to `addTime` never
decreases the session's cumulative virtual-time offset `timeAdded`: the
zero-offset short circuit and the error paths leave it unchanged, and the
jump path increases it by the non-negative computed delta; it is never
reset or reduced. -/
theorem addTime_never_decreases_timeAdded (timeAdded : ℤ) (time : ℚ)
    (fb : Option ℤ) (env : AddTimeEnv) (_h0 : 0 ≤ time) :
    timeAdded ≤ (addTime timeAdded time fb env).timeAdded := by
  unfold addTime
  split
  · exact le_refl _
  · split
    · exact le_refl _
    · next s heq =>
      split
      · exact le_refl _
      · split
        · exact le_refl _
        · next k hk =>
          split <;>
          · simp only [AddTimeRun.timeAdded]
            have := computeAddingTime_nonneg time fb
              (blockTimeToMs s.startingBlock.head_block_time) s.elapsedBlocks
            omega

theorem addTime_never_decreases_timeAdded_witness :
    (0 : ℤ) ≤ (addTime 0 5 none demoEnvOk).timeAdded :=
  addTime_never_decreases_timeAdded 0 5 none demoEnvOk (by norm_num)

/-- C2: for every strictly negative time argument, `addTime` fails
immediately with the invalid-argument error, before any settling wait, any
RPC call, or any call to the time-jump primitive (the recorded jump list
is empty), and `timeAdded` is unchanged. -/
theorem addTime_negative_rejected (timeAdded : ℤ) (time : ℚ) (fb : Option ℤ)
    (env : AddTimeEnv) (h : time < 0) :
    addTime timeAdded time fb env = ⟨.err .negativeTime, timeAdded, []⟩ := by
  unfold addTime
  rw [if_pos h]

theorem addTime_negative_rejected_witness :
    addTime 3 (-1) (some 5) demoEnvOk = ⟨.err .negativeTime, 3, []⟩ :=
  addTime_negative_rejected 3 (-1) (some 5) demoEnvOk (by norm_num)

/-- C3: `addTime` computes the offset as `deltaSeconds` minus
elapsed-settling-blocks × 0.5, additionally minus the gap
`(startTime - fromBlockTime)/1000` when an override is given, clamped
below at zero (`computeAddingTime`, translated from chain.ts lines
235-246, is never negative); and whenever this offset is exactly zero,
`addTime` returns 0 without invoking the time-jump primitive and without
modifying `timeAdded`. -/
theorem addTime_zero_offset_short_circuit (timeAdded : ℤ) (time : ℚ)
    (fb : Option ℤ) (env : AddTimeEnv) (s : SettleOut) (h0 : 0 ≤ time)
    (hs : waitTillNextBlock env.settle1 2 = some s)
    (hz : computeAddingTime time fb (blockTimeToMs s.startingBlock.head_block_time)
      s.elapsedBlocks = 0) :
    addTime timeAdded time fb env = ⟨.ret 0, timeAdded, []⟩ ∧
    ∀ st eb : ℤ, 0 ≤ computeAddingTime time fb st eb :=
  ⟨addTime_eq_ret_zero timeAdded time fb env s h0 hs hz,
    fun st eb => computeAddingTime_nonneg time fb st eb⟩

theorem addTime_zero_offset_short_circuit_witness :
    addTime 0 2 (some 0) demoEnvOk = ⟨.ret 0, 0, []⟩ ∧
    ∀ st eb : ℤ, 0 ≤ computeAddingTime 2 (some 0) st eb :=
  addTime_zero_offset_short_circuit 0 2 (some 0) demoEnvOk ⟨⟨5, 1000⟩, 2⟩
    (by norm_num) (by decide) (by norm_num [computeAddingTime, blockTimeToMs])

/-- C4: when the computed offset is positive, every invocation of the
time-jump primitive receives the session's cumulative offset plus the
newly computed delta; there are at most 10 invocations; if none of the 10
`isProducingBlock` checks succeeds, `addTime` fails with the
max-tries-exceeded error after exactly 10 invocations and the attempted
delta is not committed to `timeAdded`; the cumulative offset is increased
only when some check succeeds. -/
theorem addTime_bounded_retry (timeAdded : ℤ) (time : ℚ) (fb : Option ℤ)
    (env : AddTimeEnv) (s : SettleOut) (h0 : 0 ≤ time)
    (hs : waitTillNextBlock env.settle1 2 = some s)
    (hnz : computeAddingTime time fb (blockTimeToMs s.startingBlock.head_block_time)
      s.elapsedBlocks ≠ 0) :
    (∀ j ∈ (addTime timeAdded time fb env).jumps,
      j = timeAdded + computeAddingTime time fb
        (blockTimeToMs s.startingBlock.head_block_time) s.elapsedBlocks) ∧
    (addTime timeAdded time fb env).jumps.length ≤ 10 ∧
    ((∀ k < 10, isProducingBlock (env.producing k).1 (env.producing k).2 = false) →
      addTime timeAdded time fb env =
        ⟨.err .maxTriesExceeded, timeAdded,
          List.replicate 10 (timeAdded + computeAddingTime time fb
            (blockTimeToMs s.startingBlock.head_block_time) s.elapsedBlocks)⟩) ∧
    (∀ k, firstProducing env.producing 10 = some k →
      (addTime timeAdded time fb env).timeAdded =
        timeAdded + computeAddingTime time fb
          (blockTimeToMs s.startingBlock.head_block_time) s.elapsedBlocks) := by
  unfold addTime
  rw [if_neg (not_lt.mpr h0)]
  split
  · next heq => rw [hs] at heq; cases heq
  · next s' heq =>
    rw [hs] at heq
    injection heq with heq
    subst heq
    rw [if_neg hnz]
    split
    · next hnone =>
      refine ⟨?_, ?_, ?_, ?_⟩
      · intro j hj
        exact List.eq_of_mem_replicate hj
      · simp
      · intro _
        rfl
      · intro k hk
        rw [hnone] at hk
        cases hk
    · next k hk =>
      have hklt : k < 10 := firstProducing_lt env.producing 10 k hk
      split
      · refine ⟨?_, ?_, ?_, ?_⟩
        · intro j hj
          exact List.eq_of_mem_replicate hj
        · simp; omega
        · intro hall
          rw [(firstProducing_eq_none_iff env.producing 10).mpr hall] at hk
          cases hk
        · intro k' _
          rfl
      · refine ⟨?_, ?_, ?_, ?_⟩
        · intro j hj
          exact List.eq_of_mem_replicate hj
        · simp; omega
        · intro hall
          rw [(firstProducing_eq_none_iff env.producing 10).mpr hall] at hk
          cases hk
        · intro k' _
          rfl

theorem addTime_bounded_retry_witness :
    addTime 0 5 none demoEnvStuck =
      ⟨.err .maxTriesExceeded, 0,
        List.replicate 10 (0 + computeAddingTime 5 none
          (blockTimeToMs (1000 : ℤ)) 2)⟩ :=
  (addTime_bounded_retry 0 5 none demoEnvStuck ⟨⟨5, 1000⟩, 2⟩
    (by norm_num) (by decide)
    (by norm_num [computeAddingTime, blockTimeToMs])).2.2.1 (by decide)

/-- C5: on the successful jump path, `addTime` returns the number of
milliseconds between the reference time — the `fromBlockTime` override
when present, otherwise the head block time observed at the start of the
first settling wait — and the head block time read after the final
post-jump settling wait. -/
theorem addTime_return_elapsed_ms (timeAdded : ℤ) (time : ℚ) (fb : Option ℤ)
    (env : AddTimeEnv) (s s2 : SettleOut) (k : ℕ) (h0 : 0 ≤ time)
    (hs : waitTillNextBlock env.settle1 2 = some s)
    (hnz : computeAddingTime time fb (blockTimeToMs s.startingBlock.head_block_time)
      s.elapsedBlocks ≠ 0)
    (hp : firstProducing env.producing 10 = some k)
    (hs2 : waitTillNextBlock env.settle2 2 = some s2) :
    (addTime timeAdded time fb env).result =
      .ret (blockTimeToMs env.endInfo.head_block_time -
        fb.getD (blockTimeToMs s.startingBlock.head_block_time)) := by
  unfold addTime
  rw [if_neg (not_lt.mpr h0)]
  split
  · next heq => rw [hs] at heq; cases heq
  · next s' heq =>
    rw [hs] at heq
    injection heq with heq
    subst heq
    rw [if_neg hnz]
    split
    · next hnone => rw [hp] at hnone; cases hnone
    · next k' hk =>
      split
      · next heq2 => rw [hs2] at heq2; cases heq2
      · rfl

theorem addTime_return_elapsed_ms_witness :
    (addTime 0 5 none demoEnvOk).result =
      .ret (blockTimeToMs demoEnvOk.endInfo.head_block_time -
        (none : Option ℤ).getD (blockTimeToMs (1000 : ℤ))) :=
  addTime_return_elapsed_ms 0 5 none demoEnvOk ⟨⟨5, 1000⟩, 2⟩ ⟨⟨9, 4000⟩, 2⟩ 0
    (by norm_num) (by decide) (by norm_num [computeAddingTime, blockTimeToMs])
    (by decide) (by decide)

/-- C6: each account is created by one transaction bundling exactly four
actions in the fixed order newaccount, buyrambytes, delegatebw, transfer:
(1) create the identity with owner and active both the threshold-1
authority over the shared test key, (2) buy a fixed storage-byte
allocation paid by `eosio`, (3) delegate fixed net and CPU stake with
ownership transferred, (4) transfer the configurable native-token
quantity with the fixed memo, every action authorized by `eosio@active`;
and a batch submits one such transaction per name, in list order (the
i-th transaction is for the i-th name). -/
theorem createAccount_transaction_shape (key acct : String)
    (supply : AssetQuantity) (bytes : ℕ) (names : List String) :
    (createAccountActions key acct supply bytes).map
        (fun a => (a.account, a.name)) =
      [("eosio", "newaccount"), ("eosio", "buyrambytes"),
        ("eosio", "delegatebw"), ("eosio.token", "transfer")] ∧
    (createAccountActions key acct supply bytes).map ChainAction.data =
      [.newaccount "eosio" acct ⟨1, [⟨key, 1⟩], [], []⟩ ⟨1, [⟨key, 1⟩], [], []⟩,
        .buyrambytes "eosio" acct bytes,
        .delegatebw "eosio" acct (toAssetQuantity 10 coreToken)
          (toAssetQuantity 10 coreToken) 1,
        .transfer "eosio" acct supply "supply to test account"] ∧
    (createAccountActions key acct supply bytes).map ChainAction.authorization =
      List.replicate 4 [⟨"eosio", "active"⟩] ∧
    createAccounts key names supply =
      names.map (fun a => createAccountActions key a supply) :=
  ⟨rfl, rfl, rfl, rfl⟩

/-- C7 counterexample: the default batch of 10 accounts is NOT named
`a11.test` through `a25.test`; the code's name scheme uses the prefix
`acc`, not `a`. -/
theorem createTestAccountNames_not_a_prefix :
    createTestAccountNames 10 ≠
      ["a11.test", "a12.test", "a13.test", "a14.test", "a15.test",
        "a21.test", "a22.test", "a23.test", "a24.test", "a25.test"] := by
  decide

/-- C7 (amended): the default provisioning batch creates exactly 10
accounts whose names are the deterministic index scheme
`acc⌊i/5⌋+1,i%5+1.test`, yielding `acc11.test` through `acc25.test`; each
is funded by a transfer of the default 100-unit native-token supply
amount, and the batch is the same for every session (it depends only on
the index scheme and the defaults). -/
theorem default_batch_names_and_funding (key : String) :
    createTestAccountNames 10 =
      ["acc11.test", "acc12.test", "acc13.test", "acc14.test", "acc15.test",
        "acc21.test", "acc22.test", "acc23.test", "acc24.test", "acc25.test"] ∧
    (initializeTestAccounts key).length = 10 ∧
    initializeTestAccounts key =
      (createTestAccountNames 10).map
        (fun a => createAccountActions key a (toAssetQuantity 100 coreToken)) ∧
    (initializeTestAccounts key).map
        (fun tx => tx.map (fun a => transferQuantity a.data)) =
      List.replicate 10 [none, none, none, some (toAssetQuantity 100 coreToken)] ∧
    (toAssetQuantity 100 coreToken).amount = 100 :=
  ⟨by decide, rfl, rfl, rfl, rfl⟩

/-- C8: `waitTillNextBlock n` never returns before the head block number
is at least `n` greater than its starting snapshot: whenever it returns,
the returned snapshot is the one taken at the start and the returned
elapsed-blocks count is at least `n` (the final observed height being
snapshot + elapsedBlocks). -/
theorem waitTillNextBlock_advances (env : SettleEnv) (n : ℤ) (out : SettleOut)
    (h : waitTillNextBlock env n = some out) :
    out.startingBlock = env.startingBlock ∧ n ≤ out.elapsedBlocks ∧
    env.startingBlock.head_block_num + n ≤
      env.startingBlock.head_block_num + out.elapsedBlocks := by
  obtain ⟨h1, h2⟩ := waitTillNextBlock_spec env n out h
  exact ⟨h1, h2, by omega⟩

theorem waitTillNextBlock_advances_witness :
    (⟨⟨5, 1000⟩, 2⟩ : SettleOut).startingBlock = demoSettle.startingBlock ∧
    (2 : ℤ) ≤ (⟨⟨5, 1000⟩, 2⟩ : SettleOut).elapsedBlocks ∧
    demoSettle.startingBlock.head_block_num + 2 ≤
      demoSettle.startingBlock.head_block_num +
        (⟨⟨5, 1000⟩, 2⟩ : SettleOut).elapsedBlocks :=
  waitTillNextBlock_advances demoSettle 2 ⟨⟨5, 1000⟩, 2⟩ (by decide)

/-- C9 counterexample: `isProducingBlock` does not return true whenever
the two samples merely differ: with samples 5 then 3 the samples differ,
yet it returns false (the code tests strict increase, `second - first > 0`). -/
theorem isProducingBlock_differ_cex :
    isProducingBlock (some 5) (some 3) = false ∧ (5 : ℤ) ≠ 3 := by
  decide

/-- C9 (amended): `isProducingBlock` returns false — never propagates an
error — whenever either underlying RPC read fails, and returns true if
and only if both samples succeed and the second head block number is
strictly greater than the first (the head block number has increased;
this coincides with "the samples differ" only when the head never
decreases between the two samples). -/
theorem isProducingBlock_characterization (s1 s2 : Option ℤ) :
    (isProducingBlock s1 s2 = true ↔
      ∃ a b : ℤ, s1 = some a ∧ s2 = some b ∧ a < b) ∧
    isProducingBlock none s2 = false ∧ isProducingBlock s1 none = false := by
  refine ⟨?_, ?_, ?_⟩
  · cases s1 with
    | none => simp [isProducingBlock]
    | some a =>
      cases s2 with
      | none => simp [isProducingBlock]
      | some b => simp [isProducingBlock, sub_pos]
  · simp [isProducingBlock]
  · cases s1 <;> simp [isProducingBlock]

/-- C10: for every requested delta of at most 1 second with no
`fromBlockTime` override, `addTime` returns 0, never invokes the
time-jump primitive, and leaves `timeAdded` unchanged: the mandatory
2-block settling wait yields `elapsedBlocks ≥ 2`, so the computed offset
`⌊max 0 (time - elapsedBlocks * 0.5)⌋` is 0 for all `0 ≤ time ≤ 1`. -/
theorem addTime_small_delta_returns_zero (timeAdded : ℤ) (time : ℚ)
    (env : AddTimeEnv) (s : SettleOut) (h0 : 0 ≤ time) (h1 : time ≤ 1)
    (hs : waitTillNextBlock env.settle1 2 = some s) :
    addTime timeAdded time none env = ⟨.ret 0, timeAdded, []⟩ := by
  have he : (2 : ℤ) ≤ s.elapsedBlocks := (waitTillNextBlock_spec env.settle1 2 s hs).2
  have heq : (1 : ℚ) ≤ (s.elapsedBlocks : ℚ) * (1 / 2) := by
    have : (2 : ℚ) ≤ (s.elapsedBlocks : ℚ) := by exact_mod_cast he
    linarith
  have hz : computeAddingTime time none
      (blockTimeToMs s.startingBlock.head_block_time) s.elapsedBlocks = 0 := by
    unfold computeAddingTime
    have hle : time - (s.elapsedBlocks : ℚ) * (1 / 2) ≤ 0 := by linarith
    rw [max_eq_left hle, Int.floor_zero]
  exact addTime_eq_ret_zero timeAdded time none env s h0 hs hz

theorem addTime_small_delta_returns_zero_witness :
    addTime 7 1 none demoEnvOk = ⟨.ret 0, 7, []⟩ :=
  addTime_small_delta_returns_zero 7 1 demoEnvOk ⟨⟨5, 1000⟩, 2⟩
    (by norm_num) (by norm_num) (by decide)

end Qtest
